import Mathlib

/-!
# Frutie page script (`src/Frontend/script.js`)

A shallow embedding of the chat-widget module `initFruitieAI` (its message
list, the children of `messagesEl`; the open / loading / welcome flags; the
outbound request and the event listeners) and of three helpers of the buyer
page (`isValidPhone`, `escapeHtml`, `loadFruits`), followed by the properties
proved about them.

DOM focus, scrolling and console logging are not part of the state: no
function of the script reads them back.
-/

namespace Frutie

/-! ## Strings -/

/-- ECMAScript `WhiteSpace` and `LineTerminator` code points, the characters
`String.prototype.trim` strips. -/
def isWhiteSpace (c : Char) : Bool :=
  c.toNat ∈ [0x09, 0x0A, 0x0B, 0x0C, 0x0D, 0x20, 0xA0, 0x1680, 0x2028, 0x2029,
             0x202F, 0x205F, 0x3000, 0xFEFF]
    || (0x2000 ≤ c.toNat && c.toNat ≤ 0x200A)

/-- JavaScript `String.prototype.trim`: strip white space from both ends. -/
def trim (s : String) : String :=
  ⟨((s.data.dropWhile isWhiteSpace).reverse.dropWhile isWhiteSpace).reverse⟩

/-- Substring search on character lists: does `needle` occur in `hay` at some
position? -/
def includesList (needle : List Char) : List Char → Bool
  | [] => needle.isPrefixOf []
  | c :: cs => needle.isPrefixOf (c :: cs) || includesList needle cs

/-- JavaScript `String.prototype.includes`. -/
def includes (s sub : String) : Bool :=
  includesList sub.data s.data

/-! ## Messages and pruning -/

/-- The `role` argument of `appendMessage` (`'ai' | 'user' | 'error'`). -/
inductive Role where
  | user
  | ai
  | error
  deriving DecidableEq, Repr

/-- One message bubble attached to `messagesEl`: its role, the bubble text and
the formatted time shown in the timestamp span. -/
structure ChatMessage where
  role : Role
  text : String
  sentAt : String
  deriving DecidableEq, Repr

/-- Constant `MAX_HISTORY`: maximum messages to keep in the DOM. -/
def MAX_HISTORY : Nat := 50

/-- DOM `messagesEl.removeChild(node)`: detach `node` (absent node: nothing to
detach). -/
def removeChild (children : List ChatMessage) : Option ChatMessage → List ChatMessage
  | some node => children.erase node
  | none => children

/-- Function `pruneMessages`: `messages` is the static snapshot returned by
`querySelectorAll`; when it is longer than `MAX_HISTORY` the loop detaches
`messages[0]`, ..., `messages[excess - 1]` from the live child list. -/
def pruneMessages (children : List ChatMessage) : List ChatMessage :=
  let messages := children
  if messages.length > MAX_HISTORY then
    let excess := messages.length - MAX_HISTORY
    (List.range excess).foldl (fun live i => removeChild live messages[i]?) children
  else
    children

/-- Function `appendMessage(role, text)`: attach the new wrapper as last child, then
prune. `now` is `formatTime(new Date())`. -/
def appendMessage (children : List ChatMessage) (role : Role) (text now : String) :
    List ChatMessage :=
  pruneMessages (children ++ [⟨role, text, now⟩])

/-- The last `n` elements of a list. -/
def lastN (n : Nat) (l : List α) : List α :=
  l.drop (l.length - n)

/-! ## The outbound request -/

/-- A parsed JSON value, as produced by `response.json()`. A numeric payload is
kept as an integer: the module observes of it only whether it is zero. -/
inductive Json where
  | null
  | bool (b : Bool)
  | num (n : Int)
  | str (s : String)
  | arr (items : List Json)
  | obj (fields : List (String × Json))

/-- JavaScript truthiness of a parsed JSON value (the test `!data`). -/
def Json.truthy : Json → Bool
  | .null => false
  | .bool b => b
  | .num n => n != 0
  | .str s => s != ""
  | .arr _ => true
  | .obj _ => true

/-- Property read `data[key]` on a non-null value: own property of an object,
`undefined` (`none`) on every other value read by the module. -/
def Json.get (key : String) : Json → Option Json
  | .obj fields => fields.lookup key
  | _ => none

/-- How the `fetch` of one chat call ends: the promise rejects, or a response
arrives with its `ok` flag, status line and the result of `response.json()`
(which itself may reject). -/
inductive FetchOutcome where
  | rejected (err : String)
  | response (ok : Bool) (status : Nat) (statusText : String) (body : Except String Json)

/-- The `payload` object posted to `AI_ENDPOINT`. -/
structure ChatRequest where
  message : String
  page : String
  deriving DecidableEq, Repr

/-- Function `detectPage`: the page context derived from `window.location.pathname`. -/
def detectPage (path : String) : String :=
  if includes path "buyer" then "buyer"
  else if includes path "seller" then "seller"
  else "home"

/-- Constant `PAGE_CONTEXT`, computed once at start-up from the page path. -/
def PAGE_CONTEXT (pathname : String) : String :=
  detectPage pathname

/-- The request built in the first lines of `sendToAI(message)`. -/
def sendToAIPayload (pathname message : String) : ChatRequest :=
  { message := message, page := PAGE_CONTEXT pathname }

/-- The text of the `Error` thrown on a payload of the wrong shape. -/
def formatError : String := "Unexpected response format from AI service."

/-- Function `sendToAI` after the `fetch` has been issued: the returned reply, or the
thrown error. -/
def sendToAI : FetchOutcome → Except String String
  | .rejected err => .error err
  | .response ok status statusText body =>
    if !ok then
      .error ("Server error: " ++ toString status ++ " " ++ statusText)
    else
      match body with
      | .error err => .error err
      | .ok data =>
        if !data.truthy then .error formatError
        else
          match data.get "reply" with
          | some (.str reply) => .ok reply
          | _ => .error formatError

/-! ## Widget state -/

/-- The module state: the three flags, the children of `messagesEl`, the DOM
attributes the module writes, and the chat calls issued and not yet settled. -/
structure ChatState where
  isOpen : Bool
  isLoading : Bool
  welcomeShown : Bool
  messages : List ChatMessage
  inputValue : String
  modalHidden : Bool
  ariaExpanded : String
  typingHidden : Bool
  sendDisabled : Bool
  inputDisabled : Bool
  pending : List ChatRequest
  deriving DecidableEq, Repr

/-- State at the end of `initFruitieAI`, with every element the module looks up
present in the page: closed, idle, no welcome, no message, modal and typing
indicator hidden, controls enabled. -/
def ChatState.init : ChatState :=
  { isOpen := false, isLoading := false, welcomeShown := false, messages := [],
    inputValue := "", modalHidden := true, ariaExpanded := "false",
    typingHidden := true, sendDisabled := false, inputDisabled := false,
    pending := [] }

/-- Function `openModal`. -/
def openModal (s : ChatState) : ChatState :=
  { s with modalHidden := false, isOpen := true, ariaExpanded := "true" }

/-- Function `closeModal`. -/
def closeModal (s : ChatState) : ChatState :=
  { s with modalHidden := true, isOpen := false, ariaExpanded := "false" }

/-- Function `toggleModal`. -/
def toggleModal (s : ChatState) : ChatState :=
  if s.isOpen then closeModal s else openModal s

/-- Function `setLoading(loading)`. -/
def setLoading (s : ChatState) (loading : Bool) : ChatState :=
  { s with isLoading := loading, typingHidden := !loading, sendDisabled := loading,
           inputDisabled := loading }

/-- The fixed text shown when `sendToAI` throws. -/
def errorText : String :=
  "⚠️ Sorry, I couldn't reach the AI service. Please try again shortly."

/-- Function `handleSend` up to its `await`: the guard, the user bubble, the input
reset, `setLoading(true)` and the `fetch` issued by `sendToAI(text)`. -/
def handleSend (pathname : String) (s : ChatState) (now : String) : ChatState :=
  let text := trim s.inputValue
  if text = "" || s.isLoading then s
  else
    let s1 := { s with messages := appendMessage s.messages .user text now }
    let s2 := { s1 with inputValue := "" }
    let s3 := setLoading s2 true
    { s3 with pending := s3.pending ++ [sendToAIPayload pathname text] }

/-- Function `handleSend` from the point where `sendToAI` settles: the `try` / `catch`
bubble, then the `finally` block. -/
def handleSendSettled (s : ChatState) (o : FetchOutcome) (now : String) : ChatState :=
  let s1 :=
    match sendToAI o with
    | .ok reply => { s with messages := appendMessage s.messages .ai reply now }
    | .error _ => { s with messages := appendMessage s.messages .error errorText now }
  setLoading s1 false

/-- The `greetings` table of `showWelcome`, read at `key`. -/
def greetings (key : String) : Option String :=
  if key = "buyer" then
    some "👋 Hi! I'm your Fruitie AI assistant. I can help you find the best fruits, compare seller prices, or estimate quantities. What are you looking for today?"
  else if key = "seller" then
    some "👋 Hi! I'm your Fruitie AI assistant. I can help you price your produce, find transport options, or understand payment methods. How can I help?"
  else if key = "home" then
    some "👋 Welcome to Fruitie! I'm your AI assistant. Ask me anything about buying or selling fresh fruit on the platform."
  else none

/-- The expression `greetings[PAGE_CONTEXT] || greetings.home`. -/
def welcomeText (pathname : String) : String :=
  match greetings (PAGE_CONTEXT pathname) with
  | some g => if g != "" then g else (greetings "home").getD ""
  | none => (greetings "home").getD ""

/-- Function `showWelcome`. -/
def showWelcome (pathname : String) (s : ChatState) (now : String) : ChatState :=
  if s.welcomeShown then s
  else
    let s1 := { s with welcomeShown := true }
    { s1 with messages := appendMessage s1.messages .ai (welcomeText pathname) now }

/-! ## Event listeners -/

/-- Where a `keydown` event is dispatched. -/
inductive KeyTarget where
  | fab
  | input
  | other
  deriving DecidableEq, Repr

/-- The events the module listens to. `now` is the formatted clock reading at
the time the listener runs. -/
inductive Event where
  | fabClick (now : String)
  | keydown (target : KeyTarget) (key : String) (shiftKey : Bool) (now : String)
  | closeClick
  | sendClick (now : String)
  | typeInput (value : String)
  | settle (o : FetchOutcome) (now : String)

/-- One event, handled by the listeners in registration order; a `keydown`
bubbles from its target to `document`. A `settle` with no call outstanding
has no continuation to resume. -/
def step (pathname : String) (s : ChatState) : Event → ChatState
  | .fabClick now =>
    let s1 := toggleModal s
    if s1.isOpen then showWelcome pathname s1 now else s1
  | .keydown target key shiftKey now =>
    let s1 :=
      match target with
      | .fab => if key = "Enter" || key = " " then toggleModal s else s
      | .input => if key = "Enter" && !shiftKey then handleSend pathname s now else s
      | .other => s
    if key = "Escape" && s1.isOpen then closeModal s1 else s1
  | .closeClick => closeModal s
  | .sendClick now => handleSend pathname s now
  | .typeInput value => { s with inputValue := value }
  | .settle o now =>
    match s.pending with
    | [] => s
    | _ :: rest => handleSendSettled { s with pending := rest } o now

/-- The state after a sequence of events. -/
def run (pathname : String) (s : ChatState) (events : List Event) : ChatState :=
  events.foldl (step pathname) s

/-! ## Vocabulary of the claims -/

/-- Does the payload delivered by `response.json()` carry a string-typed
`reply` field? -/
def hasStringReply : Except String Json → Bool
  | .ok data =>
    match data.get "reply" with
    | some (.str _) => true
    | _ => false
  | .error _ => false

/-- The three failures of a chat call: the `fetch` rejects, the response status
is not a success status, or the payload lacks a string-typed `reply`. -/
def callFails : FetchOutcome → Bool
  | .rejected _ => true
  | .response ok _ _ body => !ok || !hasStringReply body

/-- A response with a success status and payload `{reply: r}`. -/
def replyResponse (r : String) : FetchOutcome :=
  .response true 200 "OK" (.ok (.obj [("reply", .str r)]))

/-- One send/reply round-trip: what the user typed, the reply delivered, and
the clock readings at the two appends. -/
structure RoundTrip where
  input : String
  reply : String
  sentAt : String
  repliedAt : String

/-- The events of one successful round-trip. -/
def RoundTrip.events (t : RoundTrip) : List Event :=
  [.typeInput t.input, .sendClick t.sentAt, .settle (replyResponse t.reply) t.repliedAt]

/-- The two messages of one round-trip, in send order. -/
def RoundTrip.messages (t : RoundTrip) : List ChatMessage :=
  [⟨.user, trim t.input, t.sentAt⟩, ⟨.ai, t.reply, t.repliedAt⟩]

/-- The open and close actions: a click on the FAB or on the close button, and
every key press that does not reach `handleSend` (any key on the FAB or
elsewhere in the document, Escape in the input). -/
def Event.isOpenClose : Event → Bool
  | .fabClick _ => true
  | .closeClick => true
  | .keydown target key _ _ => target != .input || key == "Escape"
  | _ => false

/-! ## Form helpers -/

/-- The fragment of JavaScript regular expressions used by `isValidPhone`: one
character, a character class, sequence, alternation, `?` and `{n}`. -/
inductive Re where
  | chr (c : Char)
  | cls (p : Char → Bool)
  | seq (a b : Re)
  | alt (a b : Re)
  | opt (a : Re)
  | rep (n : Nat) (a : Re)

/-- Backtracking matcher: every remainder of the input left after the pattern
has matched a leading part of it, in the order the alternatives are tried. -/
def Re.run : Re → List Char → List (List Char)
  | .chr c, s =>
    match s with
    | x :: xs => if x = c then [xs] else []
    | [] => []
  | .cls p, s =>
    match s with
    | x :: xs => if p x then [xs] else []
    | [] => []
  | .seq a b, s => (a.run s).flatMap b.run
  | .alt a b, s => a.run s ++ b.run s
  | .opt a, s => a.run s ++ [s]
  | .rep n a, s => (List.range n).foldl (fun acc _ => acc.flatMap a.run) [s]

/-- The method `test` for a pattern written between `^` and `$` (no flags): the
pattern must match from the first character and leave nothing. -/
def Re.test (re : Re) (s : List Char) : Bool :=
  (re.run s).any List.isEmpty

/-- The class `\d`: the ten ASCII digits. -/
def isDigit (c : Char) : Bool :=
  '0' ≤ c && c ≤ '9'

/-- The pattern of `isValidPhone`, `^(\+?254|0)[17]\d{8}$`, without its anchors. -/
def phonePattern : Re :=
  .seq (.alt (.seq (.opt (.chr '+')) (.seq (.chr '2') (.seq (.chr '5') (.chr '4')))) (.chr '0'))
    (.seq (.cls (fun c => c = '1' || c = '7')) (.rep 8 (.cls isDigit)))

/-- The call `phone.replace(/\s+/g, '')`: every run of white space is deleted. -/
def removeWhiteSpace (s : List Char) : List Char :=
  s.filter (fun c => !isWhiteSpace c)

/-- Function `isValidPhone`. -/
def isValidPhone (phone : String) : Bool :=
  phonePattern.test (removeWhiteSpace phone.data)

/-- The two formats named in the docstring of `isValidPhone`: 07xxxxxxxx, or
+2547xxxxxxxx, each `x` a digit. -/
def documentedPhoneFormat (cs : List Char) : Bool :=
  ("07".data.isPrefixOf cs && (cs.drop 2).length == 8 && (cs.drop 2).all isDigit)
    || ("+2547".data.isPrefixOf cs && (cs.drop 5).length == 8 && (cs.drop 5).all isDigit)

/-- The double quote character, U+0022. -/
def quoteChar : Char := Char.ofNat 34

/-- The apostrophe character, U+0027. -/
def apostropheChar : Char := Char.ofNat 39

/-- One call `str.replace(/c/g, replacement)` for a single-character pattern
`c`: every occurrence of `c` is replaced. -/
def replaceAll (c : Char) (replacement : String) (s : List Char) : List Char :=
  s.flatMap (fun x => if x = c then replacement.data else [x])

/-- Function `escapeHtml` on a string argument (the `typeof` guard is for
arguments that are not strings): the five `replace` calls in source order. -/
def escapeHtml (str : String) : String :=
  ⟨str.data
    |> replaceAll '&' "&amp;"
    |> replaceAll '<' "&lt;"
    |> replaceAll '>' "&gt;"
    |> replaceAll quoteChar "&quot;"
    |> replaceAll apostropheChar "&#039;"⟩

/-- The five entities written by `escapeHtml`, each with the character it
stands for. -/
def entities : List (String × Char) :=
  [("&amp;", '&'), ("&lt;", '<'), ("&gt;", '>'), ("&quot;", quoteChar),
   ("&#039;", apostropheChar)]

/-- The five characters `escapeHtml` replaces. -/
def specialChars : List Char :=
  ['&', '<', '>', quoteChar, apostropheChar]

/-- The entity (or the character itself) that stands for one character in the
output of `escapeHtml`. -/
def escapeChar (x : Char) : List Char :=
  if x = '&' then "&amp;".data
  else if x = '<' then "&lt;".data
  else if x = '>' then "&gt;".data
  else if x = quoteChar then "&quot;".data
  else if x = apostropheChar then "&#039;".data
  else [x]

/-- Decoding, left to right with `fuel` steps: an entity at the head of the
input is replaced by its character, any other character is copied. -/
def unescapeAux : Nat → List Char → List Char
  | 0, _ => []
  | fuel + 1, s =>
    match s with
    | [] => []
    | c :: cs =>
      match entities.find? (fun e => e.1.data.isPrefixOf s) with
      | some e => e.2 :: unescapeAux fuel (s.drop e.1.length)
      | none => c :: unescapeAux fuel cs

/-- Replacing the five entities back by their characters; one step per input
character is enough fuel. -/
def unescapeHtml (s : String) : String :=
  ⟨unescapeAux s.length s.data⟩

/-! ## Buyer page: the fruit list -/

/-- One entry of the mock fruit table. -/
structure Fruit where
  id : Nat
  name : String
  emoji : String
  deriving DecidableEq, Repr

/-- The table `MOCK_FRUITS`. -/
def MOCK_FRUITS : List Fruit :=
  [ { id := 1, name := "🍎 Apple", emoji := "🍎" },
    { id := 2, name := "🍌 Banana", emoji := "🍌" },
    { id := 3, name := "🥭 Mango", emoji := "🥭" },
    { id := 4, name := "🍇 Grapes", emoji := "🍇" },
    { id := 5, name := "🍊 Orange", emoji := "🍊" },
    { id := 6, name := "🍓 Strawberry", emoji := "🍓" },
    { id := 7, name := "🍍 Pineapple", emoji := "🍍" },
    { id := 8, name := "🍉 Watermelon", emoji := "🍉" },
    { id := 9, name := "🫐 Blueberry", emoji := "🫐" },
    { id := 10, name := "🍑 Peach", emoji := "🍑" },
    { id := 11, name := "🍐 Pear", emoji := "🍐" },
    { id := 12, name := "🍒 Cherry", emoji := "🍒" } ]

/-- The `span` built for one fruit in `loadFruits`. -/
structure FruitTag where
  className : String
  textContent : String
  fruitId : String
  role : String
  tabindex : String
  ariaPressed : String
  deriving DecidableEq, Repr

/-- A child of the `fruitListArea` element: a fruit tag, the `fruitsLoading`
indicator when it sits inside the area, or markup written through `innerHTML`. -/
inductive AreaNode where
  | tag (t : FruitTag)
  | loading
  | markup (html : String)
  deriving DecidableEq, Repr

/-- The part of the buyer page `loadFruits` works on: the children of
`fruitListArea` when that element exists, and whether an element with id
`fruitsLoading` is attached to the page. -/
structure BuyerPage where
  area : Option (List AreaNode)
  loadingEl : Bool
  deriving DecidableEq, Repr

/-- The signature the docstring at the head of the utility section gives for
`mockFetch(url, options, mockData)`: the promise resolves with data or rejects. -/
abbrev MockFetch := String → Option String → List Fruit → Except String (List Fruit)

/-- The binding of the identifier `mockFetch` in the script: there is none. The
docstring of `mockFetch` is followed by `let history` and `function
sendMessage`; no declaration in the file has the name, so evaluating it throws
a `ReferenceError`. -/
def scriptMockFetch : Option MockFetch := none

/-- The helper as its docstring describes it: it resolves with `mockData`. -/
def documentedMockFetch : MockFetch :=
  fun _ _ mockData => .ok mockData

/-- The body of the `forEach` callback in `loadFruits`: the tag for one fruit. -/
def fruitTag (fruit : Fruit) : FruitTag :=
  { className := "fruit-tag", textContent := fruit.name, fruitId := toString fruit.id,
    role := "button", tabindex := "0", ariaPressed := "false" }

/-- The markup written by the `catch` block of `loadFruits`. -/
def loadFruitsError : String :=
  "<p style=\"color:#d62828;font-size:0.85rem;\">Failed to load fruits. Please refresh.</p>"

/-- Function `loadFruits`, with the binding of `mockFetch` in scope as a
parameter: the `try` block evaluates the call, and both blocks detach the
loading indicator when there is one. -/
def loadFruits (mockFetch : Option MockFetch) (page : BuyerPage) : BuyerPage :=
  match page.area with
  | none => page
  | some children =>
    let fetched : Except String (List Fruit) :=
      match mockFetch with
      | none => .error "ReferenceError: mockFetch is not defined"
      | some f => f "/api/fruits" none MOCK_FRUITS
    let detached := if page.loadingEl then children.erase .loading else children
    match fetched with
    | .ok fruits =>
      { area := some (detached ++ fruits.map (fun fruit => AreaNode.tag (fruitTag fruit))),
        loadingEl := false }
    | .error _ =>
      { area := some [.markup loadFruitsError], loadingEl := false }

/-- The fruit tags among the children of the area, in document order. -/
def BuyerPage.tags (page : BuyerPage) : List FruitTag :=
  (page.area.getD []).filterMap (fun n => match n with | .tag t => some t | _ => none)

/-! ## Pruning lemmas -/

theorem removeLoop_eq_drop (l : List ChatMessage) (k : Nat) (hk : k ≤ l.length) :
    (List.range k).foldl (fun live i => removeChild live l[i]?) l = l.drop k := by
  induction k with
  | zero => simp
  | succ k ih =>
    have hlt : k < l.length := hk
    rw [List.range_succ, List.foldl_append, ih (Nat.le_of_lt hlt)]
    simp only [List.foldl_cons, List.foldl_nil]
    rw [List.getElem?_eq_getElem hlt]
    show (List.drop k l).erase l[k] = List.drop (k + 1) l
    have hd : List.drop k l = l[k] :: List.drop (k + 1) l := List.drop_eq_getElem_cons hlt
    rw [hd, List.erase_cons_head]

theorem pruneMessages_eq_lastN (l : List ChatMessage) :
    pruneMessages l = lastN MAX_HISTORY l := by
  unfold pruneMessages lastN
  simp only
  split
  · exact removeLoop_eq_drop l _ (Nat.sub_le _ _)
  · rename_i h
    have : l.length - MAX_HISTORY = 0 := by omega
    simp [this]

theorem lastN_length (n : Nat) (l : List α) : (lastN n l).length = min l.length n := by
  unfold lastN
  simp
  omega

theorem lastN_lastN_append (n : Nat) (l m : List α) :
    lastN n (lastN n l ++ m) = lastN n (l ++ m) := by
  unfold lastN
  by_cases h : l.length ≤ n
  · have : l.length - n = 0 := by omega
    simp [this]
  · have h1 : (List.drop (l.length - n) l).length = n := by simp; omega
    rw [List.length_append, h1, List.length_append]
    have h2 : l.length + m.length - n = (l.length - n) + (n + m.length - n) := by omega
    rw [h2, ← List.drop_drop]
    congr 1
    rw [List.drop_append_of_le_length (by omega)]

theorem appendMessage_eq_lastN (h : List ChatMessage) (role : Role) (text now : String) :
    appendMessage h role text now = lastN MAX_HISTORY (h ++ [⟨role, text, now⟩]) :=
  pruneMessages_eq_lastN _

theorem appendMessage_length_le (h : List ChatMessage) (role : Role) (text now : String) :
    (appendMessage h role text now).length ≤ MAX_HISTORY := by
  rw [appendMessage_eq_lastN, lastN_length]
  exact Nat.min_le_right _ _

/-! ## Frame lemmas for the state functions -/

@[simp] theorem openModal_messages (s : ChatState) : (openModal s).messages = s.messages := rfl
@[simp] theorem closeModal_messages (s : ChatState) : (closeModal s).messages = s.messages := rfl
@[simp] theorem openModal_isLoading (s : ChatState) : (openModal s).isLoading = s.isLoading := rfl
@[simp] theorem closeModal_isLoading (s : ChatState) : (closeModal s).isLoading = s.isLoading := rfl
@[simp] theorem openModal_pending (s : ChatState) : (openModal s).pending = s.pending := rfl
@[simp] theorem closeModal_pending (s : ChatState) : (closeModal s).pending = s.pending := rfl

@[simp] theorem toggleModal_messages (s : ChatState) : (toggleModal s).messages = s.messages := by
  unfold toggleModal; split <;> rfl

@[simp] theorem toggleModal_isLoading (s : ChatState) :
    (toggleModal s).isLoading = s.isLoading := by
  unfold toggleModal; split <;> rfl

@[simp] theorem toggleModal_pending (s : ChatState) : (toggleModal s).pending = s.pending := by
  unfold toggleModal; split <;> rfl

/-- Every message list written by the module is the old list or one
`appendMessage` away from it. -/
theorem handleSend_messages (p : String) (s : ChatState) (now : String) :
    (handleSend p s now).messages = s.messages ∨
    ∃ role text t, (handleSend p s now).messages = appendMessage s.messages role text t := by
  unfold handleSend
  simp only
  split
  · exact .inl rfl
  · exact .inr ⟨_, _, _, rfl⟩

theorem handleSendSettled_messages (s : ChatState) (o : FetchOutcome) (now : String) :
    ∃ role text t, (handleSendSettled s o now).messages = appendMessage s.messages role text t := by
  unfold handleSendSettled
  simp only
  split
  · exact ⟨_, _, _, rfl⟩
  · exact ⟨_, _, _, rfl⟩

theorem showWelcome_messages (p : String) (s : ChatState) (now : String) :
    (showWelcome p s now).messages = s.messages ∨
    ∃ role text t, (showWelcome p s now).messages = appendMessage s.messages role text t := by
  unfold showWelcome
  simp only
  split
  · exact .inl rfl
  · exact .inr ⟨_, _, _, rfl⟩

theorem step_messages (p : String) (s : ChatState) (e : Event) :
    (step p s e).messages = s.messages ∨
    ∃ role text t, (step p s e).messages = appendMessage s.messages role text t := by
  cases e with
  | fabClick now =>
    simp only [step]
    split
    · simpa using showWelcome_messages p (toggleModal s) now
    · simp
  | keydown target key shiftKey now =>
    simp only [step]
    cases target <;> simp only <;> repeat' split
    all_goals first
      | (left; simp; done)
      | (simpa using handleSend_messages p s now)
  | closeClick => exact .inl rfl
  | sendClick now => exact handleSend_messages p s now
  | typeInput value => exact .inl rfl
  | settle o now =>
    simp only [step]
    split
    · exact .inl rfl
    · rename_i rest _
      exact .inr (handleSendSettled_messages { s with pending := rest } o now)

theorem step_messages_length_le (p : String) (s : ChatState) (e : Event)
    (hs : s.messages.length ≤ MAX_HISTORY) : (step p s e).messages.length ≤ MAX_HISTORY := by
  rcases step_messages p s e with h | ⟨role, text, t, h⟩
  · rw [h]; exact hs
  · rw [h]; exact appendMessage_length_le _ _ _ _

theorem run_messages_length_le (p : String) (events : List Event) :
    ∀ s : ChatState, s.messages.length ≤ MAX_HISTORY →
      (run p s events).messages.length ≤ MAX_HISTORY := by
  induction events with
  | nil => intro s hs; exact hs
  | cons e es ih =>
    intro s hs
    exact ih (step p s e) (step_messages_length_le p s e hs)

/-! ## The send flow -/

theorem handleSend_rejected (p : String) (s : ChatState) (now : String)
    (h : s.isLoading = true ∨ trim s.inputValue = "") : handleSend p s now = s := by
  unfold handleSend
  rcases h with h | h <;> simp [h]

theorem handleSend_accepted (p : String) (s : ChatState) (now : String)
    (hl : s.isLoading = false) (ht : trim s.inputValue ≠ "") :
    handleSend p s now =
      { s with
        messages := appendMessage s.messages .user (trim s.inputValue) now
        inputValue := ""
        isLoading := true
        typingHidden := false
        sendDisabled := true
        inputDisabled := true
        pending := s.pending ++ [sendToAIPayload p (trim s.inputValue)] } := by
  unfold handleSend setLoading
  simp [hl, ht]

/-- The in-flight invariant: one outstanding call while loading, none otherwise. -/
theorem handleSend_inFlight (p : String) (s : ChatState) (now : String)
    (h : s.pending.length = s.isLoading.toNat) :
    (handleSend p s now).pending.length = (handleSend p s now).isLoading.toNat := by
  by_cases hg : s.isLoading = true ∨ trim s.inputValue = ""
  · rw [handleSend_rejected p s now hg]; exact h
  · have hl : s.isLoading = false := by
      cases hs : s.isLoading
      · rfl
      · exact absurd (Or.inl hs) hg
    have ht : trim s.inputValue ≠ "" := fun ht => hg (Or.inr ht)
    rw [handleSend_accepted p s now hl ht]
    simp [hl] at h
    simp [h]

theorem handleSendSettled_isLoading (s : ChatState) (o : FetchOutcome) (now : String) :
    (handleSendSettled s o now).isLoading = false := by
  unfold handleSendSettled setLoading
  rfl

theorem handleSendSettled_pending (s : ChatState) (o : FetchOutcome) (now : String) :
    (handleSendSettled s o now).pending = s.pending := by
  unfold handleSendSettled setLoading
  simp only
  split <;> rfl

theorem showWelcome_pending (p : String) (s : ChatState) (now : String) :
    (showWelcome p s now).pending = s.pending := by
  unfold showWelcome
  split <;> rfl

theorem showWelcome_isLoading (p : String) (s : ChatState) (now : String) :
    (showWelcome p s now).isLoading = s.isLoading := by
  unfold showWelcome
  split <;> rfl

theorem step_inFlight (p : String) (s : ChatState) (e : Event)
    (h : s.pending.length = s.isLoading.toNat) :
    (step p s e).pending.length = (step p s e).isLoading.toNat := by
  cases e with
  | fabClick now =>
    simp only [step]
    split
    · simpa [showWelcome_pending, showWelcome_isLoading] using h
    · simpa using h
  | keydown target key shiftKey now =>
    simp only [step]
    cases target <;> simp only <;> repeat' split
    all_goals first
      | (simpa using h)
      | (simpa using handleSend_inFlight p s now h)
  | closeClick => exact h
  | sendClick now => exact handleSend_inFlight p s now h
  | typeInput value => exact h
  | settle o now =>
    simp only [step]
    split
    · exact h
    · rename_i r rest hp
      rw [handleSendSettled_isLoading, handleSendSettled_pending]
      rw [hp] at h
      cases hl : s.isLoading <;> simp [hl] at h
      simp [h]

theorem run_inFlight (p : String) (events : List Event) :
    ∀ s : ChatState, s.pending.length = s.isLoading.toNat →
      (run p s events).pending.length = (run p s events).isLoading.toNat := by
  induction events with
  | nil => intro s hs; exact hs
  | cons e es ih =>
    intro s hs
    exact ih (step p s e) (step_inFlight p s e hs)

/-! ## The chat call -/

theorem Json.truthy_of_get {data : Json} {key : String} {v : Json}
    (h : data.get key = some v) : data.truthy = true := by
  cases data <;> simp [Json.get] at h
  rfl

theorem sendToAI_reply (status : Nat) (statusText : String) (data : Json) (r : String)
    (h : data.get "reply" = some (.str r)) :
    sendToAI (.response true status statusText (.ok data)) = .ok r := by
  simp [sendToAI, Json.truthy_of_get h, h]

theorem sendToAI_ok_iff (o : FetchOutcome) :
    (∃ r, sendToAI o = .ok r) ↔ callFails o = false := by
  cases o with
  | rejected err => simp [sendToAI, callFails]
  | response ok status statusText body =>
    cases ok
    · simp [sendToAI, callFails]
    · cases body with
      | error err => simp [sendToAI, callFails, hasStringReply]
      | ok data =>
        cases hg : data.get "reply" with
        | none =>
          have : ∀ r, sendToAI (.response true status statusText (.ok data)) ≠ .ok r := by
            intro r
            simp only [sendToAI]
            cases data.truthy <;> simp [hg]
          simp [callFails, hasStringReply, hg, this]
        | some v =>
          have ht := Json.truthy_of_get hg
          cases v <;> simp [sendToAI, callFails, hasStringReply, hg, ht]

theorem sendToAI_error_of_callFails (o : FetchOutcome) (h : callFails o = true) :
    ∃ e, sendToAI o = .error e := by
  cases hs : sendToAI o with
  | error e => exact ⟨e, rfl⟩
  | ok r =>
    have := (sendToAI_ok_iff o).mp ⟨r, hs⟩
    rw [h] at this
    cases this

theorem handleSendSettled_reply (s : ChatState) (o : FetchOutcome) (now r : String)
    (h : sendToAI o = .ok r) :
    handleSendSettled s o now =
      { s with
        messages := appendMessage s.messages .ai r now
        isLoading := false
        typingHidden := true
        sendDisabled := false
        inputDisabled := false } := by
  unfold handleSendSettled setLoading
  simp [h]

theorem handleSendSettled_error (s : ChatState) (o : FetchOutcome) (now e : String)
    (h : sendToAI o = .error e) :
    handleSendSettled s o now =
      { s with
        messages := appendMessage s.messages .error errorText now
        isLoading := false
        typingHidden := true
        sendDisabled := false
        inputDisabled := false } := by
  unfold handleSendSettled setLoading
  simp [h]

theorem appendMessage_twice (h : List ChatMessage) (r1 r2 : Role) (t1 t2 n1 n2 : String) :
    appendMessage (appendMessage h r1 t1 n1) r2 t2 n2
      = lastN MAX_HISTORY (h ++ [ChatMessage.mk r1 t1 n1, ChatMessage.mk r2 t2 n2]) := by
  rw [appendMessage_eq_lastN, appendMessage_eq_lastN, lastN_lastN_append]
  simp

theorem run_send_settle (p : String) (s : ChatState) (now1 now2 : String) (o : FetchOutcome)
    (hl : s.isLoading = false) (ht : trim s.inputValue ≠ "") (hp : s.pending = []) :
    run p s [.sendClick now1, .settle o now2]
      = handleSendSettled { handleSend p s now1 with pending := [] } o now2 := by
  simp only [run, List.foldl_cons, List.foldl_nil, step]
  rw [handleSend_accepted p s now1 hl ht, hp]
  rfl

theorem roundTrip_run (p : String) (t : RoundTrip) (s : ChatState)
    (hl : s.isLoading = false) (hp : s.pending = []) (ht : trim t.input ≠ "") :
    run p s t.events =
      { s with
        messages := lastN MAX_HISTORY (s.messages ++ t.messages)
        inputValue := ""
        typingHidden := true
        sendDisabled := false
        inputDisabled := false } := by
  have h := run_send_settle p { s with inputValue := t.input } t.sentAt t.repliedAt
    (replyResponse t.reply) hl ht hp
  have hok : sendToAI (replyResponse t.reply) = .ok t.reply :=
    sendToAI_reply 200 "OK" _ t.reply rfl
  show run p (step p s (.typeInput t.input)) _ = _
  show run p { s with inputValue := t.input } _ = _
  rw [h, handleSendSettled_reply _ _ _ _ hok,
    handleSend_accepted p { s with inputValue := t.input } t.sentAt hl ht]
  simp only [appendMessage_twice, RoundTrip.messages, hl, hp]

theorem run_append (p : String) (s : ChatState) (es fs : List Event) :
    run p s (es ++ fs) = run p (run p s es) fs := by
  simp [run, List.foldl_append]

theorem roundTrips_run (p : String) (trips : List RoundTrip) :
    ∀ s : ChatState, s.isLoading = false → s.pending = [] →
      s.messages.length ≤ MAX_HISTORY → (∀ t ∈ trips, trim t.input ≠ "") →
      (run p s (trips.flatMap RoundTrip.events)).messages
        = lastN MAX_HISTORY (s.messages ++ trips.flatMap RoundTrip.messages) := by
  induction trips with
  | nil =>
    intro s _ _ hm _
    have : s.messages.length - MAX_HISTORY = 0 := by omega
    simp [run, lastN, this]
  | cons t ts ih =>
    intro s hl hp _ ht
    rw [List.flatMap_cons, List.flatMap_cons, run_append,
      roundTrip_run p t s hl hp (ht t (List.mem_cons_self _ _))]
    refine Eq.trans (ih _ ?_ ?_ ?_ (fun u hu => ht u (List.mem_cons_of_mem _ hu))) ?_
    · exact hl
    · exact hp
    · show (lastN MAX_HISTORY (s.messages ++ t.messages)).length ≤ MAX_HISTORY
      rw [lastN_length]
      exact Nat.min_le_right _ _
    · show lastN MAX_HISTORY (lastN MAX_HISTORY (s.messages ++ t.messages) ++ _) = _
      rw [lastN_lastN_append, List.append_assoc]

theorem roundTrips_messages_length (trips : List RoundTrip) :
    (trips.flatMap RoundTrip.messages).length = 2 * trips.length := by
  induction trips with
  | nil => rfl
  | cons t ts ih =>
    rw [List.flatMap_cons, List.length_append, ih]
    simp [RoundTrip.messages]
    omega

/-! ## Page context -/

theorem includesList_iff (needle hay : List Char) :
    includesList needle hay = true ↔ needle <:+: hay := by
  induction hay with
  | nil => simp [includesList]
  | cons c cs ih =>
    rw [includesList, Bool.or_eq_true, ih, List.infix_cons_iff, List.isPrefixOf_iff_prefix]

theorem includes_iff (s sub : String) : includes s sub = true ↔ sub.data <:+: s.data :=
  includesList_iff _ _

theorem detectPage_buyer (path : String) (h : "buyer".data <:+: path.data) :
    detectPage path = "buyer" := by
  simp [detectPage, (includes_iff path "buyer").mpr h]

theorem detectPage_seller (path : String) (hb : ¬ "buyer".data <:+: path.data)
    (h : "seller".data <:+: path.data) : detectPage path = "seller" := by
  have hb2 : includes path "buyer" = false := by
    cases hi : includes path "buyer"
    · rfl
    · exact absurd ((includes_iff path "buyer").mp hi) hb
  simp [detectPage, hb2, (includes_iff path "seller").mpr h]

theorem detectPage_home (path : String) (hb : ¬ "buyer".data <:+: path.data)
    (h : ¬ "seller".data <:+: path.data) : detectPage path = "home" := by
  have hb2 : includes path "buyer" = false := by
    cases hi : includes path "buyer"
    · rfl
    · exact absurd ((includes_iff path "buyer").mp hi) hb
  have hs2 : includes path "seller" = false := by
    cases hi : includes path "seller"
    · rfl
    · exact absurd ((includes_iff path "seller").mp hi) h
  simp [detectPage, hb2, hs2]

theorem detectPage_mem (path : String) : detectPage path ∈ ["buyer", "seller", "home"] := by
  unfold detectPage
  split
  · simp
  · split <;> simp

theorem handleSend_pending_page (p : String) (s : ChatState) (now : String)
    (h : ∀ req ∈ s.pending, req.page = detectPage p) :
    ∀ req ∈ (handleSend p s now).pending, req.page = detectPage p := by
  by_cases hg : s.isLoading = true ∨ trim s.inputValue = ""
  · rw [handleSend_rejected p s now hg]; exact h
  · have hl : s.isLoading = false := by
      cases hs : s.isLoading
      · rfl
      · exact absurd (Or.inl hs) hg
    have ht : trim s.inputValue ≠ "" := fun ht => hg (Or.inr ht)
    rw [handleSend_accepted p s now hl ht]
    intro req hreq
    rcases List.mem_append.mp hreq with hm | hm
    · exact h req hm
    · rw [List.mem_singleton.mp hm]
      rfl

theorem step_pending_page (p : String) (s : ChatState) (e : Event)
    (h : ∀ req ∈ s.pending, req.page = detectPage p) :
    ∀ req ∈ (step p s e).pending, req.page = detectPage p := by
  cases e with
  | fabClick now =>
    simp only [step]
    split
    · simpa [showWelcome_pending] using h
    · simpa using h
  | keydown target key shiftKey now =>
    simp only [step]
    cases target <;> simp only <;> repeat' split
    all_goals first
      | (simpa using h)
      | (simpa using handleSend_pending_page p s now h)
  | closeClick => exact h
  | sendClick now => exact handleSend_pending_page p s now h
  | typeInput value => exact h
  | settle o now =>
    simp only [step]
    split
    · exact h
    · rename_i r rest hp
      rw [handleSendSettled_pending]
      intro req hreq
      exact h req (by rw [hp]; exact List.mem_cons_of_mem _ hreq)

theorem run_pending_page (p : String) (events : List Event) :
    ∀ s : ChatState, (∀ req ∈ s.pending, req.page = detectPage p) →
      ∀ req ∈ (run p s events).pending, req.page = detectPage p := by
  induction events with
  | nil => intro s hs; exact hs
  | cons e es ih =>
    intro s hs
    exact ih (step p s e) (step_pending_page p s e hs)

/-! ## Claims -/

/-- C1: after `appendMessage` on a message list of any length the retained
count is at most `MAX_HISTORY` = 50, and so is the count in every state
reached from the initial state by any sequence of widget events. -/
theorem C1_history_bounded :
    MAX_HISTORY = 50 ∧
    (∀ (h : List ChatMessage) (role : Role) (text now : String),
        (appendMessage h role text now).length ≤ MAX_HISTORY) ∧
    (∀ (pathname : String) (events : List Event),
        (run pathname ChatState.init events).messages.length ≤ MAX_HISTORY) :=
  ⟨rfl, appendMessage_length_le,
   fun p events => run_messages_length_le p events ChatState.init (by decide)⟩

/-- C2: the list after `appendMessage` is the last 50 elements of the old list
followed by the new message, survivors in their old order; on a list of
exactly 50 messages that is the old list without its oldest message followed by
the new one, again 50 long. -/
theorem C2_append_keeps_last (h : List ChatMessage) (role : Role) (text now : String) :
    appendMessage h role text now
        = (h ++ [ChatMessage.mk role text now]).drop
            ((h ++ [ChatMessage.mk role text now]).length - 50) ∧
    appendMessage h role text now
        = h.drop (h.length - 49) ++ [ChatMessage.mk role text now] ∧
    (h.length = 50 →
      appendMessage h role text now = h.tail ++ [ChatMessage.mk role text now] ∧
      (appendMessage h role text now).length = 50) := by
  have h1 : appendMessage h role text now
      = (h ++ [ChatMessage.mk role text now]).drop
          ((h ++ [ChatMessage.mk role text now]).length - 50) :=
    appendMessage_eq_lastN h role text now
  have h2 : appendMessage h role text now
      = h.drop (h.length - 49) ++ [ChatMessage.mk role text now] := by
    rw [h1, List.length_append, List.length_singleton,
      List.drop_append_of_le_length (by omega)]
    have e : h.length + 1 - 50 = h.length - 49 := by omega
    rw [e]
  refine ⟨h1, h2, fun h50 => ?_⟩
  constructor
  · rw [h2, h50]
    simp [List.drop_one]
  · rw [h1]
    simp
    omega

/-- C2 at a full history: fifty numbered messages, then one more. -/
theorem C2_append_keeps_last_witness :
    ((List.range 50).map (fun i => (⟨.user, toString i, "09:00"⟩ : ChatMessage))).length = 50 ∧
    appendMessage ((List.range 50).map (fun i => (⟨.user, toString i, "09:00"⟩ : ChatMessage)))
        .ai "hello" "09:01"
      = ((List.range 50).map (fun i => (⟨.user, toString i, "09:00"⟩ : ChatMessage))).tail
          ++ [⟨.ai, "hello", "09:01"⟩] :=
  ⟨by simp,
   ((C2_append_keeps_last _ .ai "hello" "09:01").2.2 (by simp)).1⟩

/-- C3: when `isLoading` is true or the trimmed input is empty, `handleSend`
returns at its guard: the state is untouched, so no message is appended, no
call is issued, and `isLoading`, the message list and the input value are as
before; the same holds through the send button listener. -/
theorem C3_send_guard_noop (pathname : String) (s : ChatState) (now : String)
    (h : s.isLoading = true ∨ trim s.inputValue = "") :
    handleSend pathname s now = s ∧
    step pathname s (.sendClick now) = s ∧
    (handleSend pathname s now).messages = s.messages ∧
    (handleSend pathname s now).pending = s.pending ∧
    (handleSend pathname s now).isLoading = s.isLoading ∧
    (handleSend pathname s now).inputValue = s.inputValue := by
  have e := handleSend_rejected pathname s now h
  exact ⟨e, e, by rw [e], by rw [e], by rw [e], by rw [e]⟩

/-- C3 on a blank input: white space only, widget idle. -/
theorem C3_send_guard_noop_witness :
    trim ({ ChatState.init with inputValue := " \t " } : ChatState).inputValue = "" ∧
    handleSend "/buyer.html" { ChatState.init with inputValue := " \t " } "09:00"
      = { ChatState.init with inputValue := " \t " } :=
  ⟨by decide,
   (C3_send_guard_noop "/buyer.html" { ChatState.init with inputValue := " \t " } "09:00"
      (Or.inr (by decide))).1⟩

/-- C4: in every state reached from the initial state by any sequence of
events, at most one chat call is outstanding, and exactly one is outstanding
precisely when `isLoading` is true. -/
theorem C4_single_call_in_flight (pathname : String) (events : List Event) :
    (run pathname ChatState.init events).pending.length ≤ 1 ∧
    ((run pathname ChatState.init events).pending.length = 1 ↔
      (run pathname ChatState.init events).isLoading = true) := by
  have h := run_inFlight pathname events ChatState.init (by decide)
  cases hl : (run pathname ChatState.init events).isLoading <;> simp [hl] at h <;> simp [h]

/-- C5: from a state that is not loading, with non-empty trimmed input `t`,
a call that resolves with a success status and payload `{reply: r}` makes
`handleSend` append the user message `t` and then the assistant message `r`, so
the final list is the last 50 of the old list followed by these two; the call
issued carries `t` and the page-context label. -/
theorem C5_successful_send (pathname : String) (s : ChatState) (now1 now2 r : String)
    (status : Nat) (statusText : String) (fields : List (String × Json))
    (hl : s.isLoading = false) (ht : trim s.inputValue ≠ "")
    (hr : fields.lookup "reply" = some (.str r)) :
    (handleSend pathname s now1).messages
        = appendMessage s.messages .user (trim s.inputValue) now1 ∧
    (handleSend pathname s now1).pending
        = s.pending ++ [ChatRequest.mk (trim s.inputValue) (PAGE_CONTEXT pathname)] ∧
    (handleSendSettled (handleSend pathname s now1)
        (.response true status statusText (.ok (.obj fields))) now2).messages
        = appendMessage (handleSend pathname s now1).messages .ai r now2 ∧
    (handleSendSettled (handleSend pathname s now1)
        (.response true status statusText (.ok (.obj fields))) now2).messages
        = (s.messages ++ [ChatMessage.mk .user (trim s.inputValue) now1,
                          ChatMessage.mk .ai r now2]).drop (s.messages.length + 2 - 50) ∧
    (s.pending = [] →
      (run pathname s [.sendClick now1,
          .settle (.response true status statusText (.ok (.obj fields))) now2]).messages
        = (s.messages ++ [ChatMessage.mk .user (trim s.inputValue) now1,
                          ChatMessage.mk .ai r now2]).drop (s.messages.length + 2 - 50)) := by
  have hok : sendToAI (.response true status statusText (.ok (.obj fields))) = .ok r :=
    sendToAI_reply status statusText (.obj fields) r hr
  have ha := handleSend_accepted pathname s now1 hl ht
  have h3 : (handleSendSettled (handleSend pathname s now1)
        (.response true status statusText (.ok (.obj fields))) now2).messages
        = appendMessage (handleSend pathname s now1).messages .ai r now2 := by
    rw [handleSendSettled_reply _ _ now2 r hok]
  have h4 : appendMessage (handleSend pathname s now1).messages .ai r now2
      = (s.messages ++ [ChatMessage.mk .user (trim s.inputValue) now1,
                        ChatMessage.mk .ai r now2]).drop (s.messages.length + 2 - 50) := by
    rw [ha]
    show appendMessage (appendMessage s.messages .user (trim s.inputValue) now1) .ai r now2 = _
    rw [appendMessage_twice]
    simp [lastN, MAX_HISTORY]
  refine ⟨by rw [ha], by rw [ha]; rfl, h3, h3.trans h4, fun hp => ?_⟩
  rw [run_send_settle pathname s now1 now2 _ hl ht hp, handleSendSettled_reply _ _ now2 r hok]
  exact h4

/-- C5 on the scenario of the specification: the mango question and its reply. -/
theorem C5_successful_send_witness :
    ({ ChatState.init with inputValue := "Where can I sell mangoes?" } : ChatState).isLoading
      = false ∧
    trim ({ ChatState.init with inputValue := "Where can I sell mangoes?" } : ChatState).inputValue
      ≠ "" ∧
    List.lookup "reply" [("reply", Json.str "Try Kamau Fresh Farms in Kiambu.")]
      = some (.str "Try Kamau Fresh Farms in Kiambu.") ∧
    (run "/buyer.html" { ChatState.init with inputValue := "Where can I sell mangoes?" }
      [.sendClick "09:00",
       .settle (.response true 200 "OK"
          (.ok (.obj [("reply", .str "Try Kamau Fresh Farms in Kiambu.")]))) "09:01"]).messages
      = [ChatMessage.mk .user "Where can I sell mangoes?" "09:00",
         ChatMessage.mk .ai "Try Kamau Fresh Farms in Kiambu." "09:01"] :=
  ⟨rfl, by decide, rfl,
   (C5_successful_send "/buyer.html"
      { ChatState.init with inputValue := "Where can I sell mangoes?" } "09:00" "09:01"
      "Try Kamau Fresh Farms in Kiambu." 200 "OK"
      [("reply", .str "Try Kamau Fresh Farms in Kiambu.")]
      rfl (by decide) rfl).2.2.2.2 rfl⟩

/-- C6: after an accepted send, a call that fails in any of the three ways
(rejected `fetch`, non-success status, payload without a string `reply`)
appends exactly one message after the user's own, with the error role and the
one fixed text, and leaves `isLoading` false, the typing indicator hidden and
the input and send controls enabled; `sendToAI` returns a reply exactly when
none of the three failures occurs. -/
theorem C6_failed_send (pathname : String) (s : ChatState) (now1 now2 : String)
    (o : FetchOutcome)
    (hl : s.isLoading = false) (ht : trim s.inputValue ≠ "") (hp : s.pending = [])
    (hf : callFails o = true) :
    (run pathname s [.sendClick now1, .settle o now2]).messages
        = appendMessage (appendMessage s.messages .user (trim s.inputValue) now1)
            .error errorText now2 ∧
    (run pathname s [.sendClick now1, .settle o now2]).isLoading = false ∧
    (run pathname s [.sendClick now1, .settle o now2]).typingHidden = true ∧
    (run pathname s [.sendClick now1, .settle o now2]).inputDisabled = false ∧
    (run pathname s [.sendClick now1, .settle o now2]).sendDisabled = false ∧
    (run pathname s [.sendClick now1, .settle o now2]).pending = [] ∧
    (∀ o2 : FetchOutcome, (∃ r, sendToAI o2 = .ok r) ↔ callFails o2 = false) := by
  obtain ⟨e, he⟩ := sendToAI_error_of_callFails o hf
  rw [run_send_settle pathname s now1 now2 o hl ht hp, handleSendSettled_error _ _ now2 e he,
    handleSend_accepted pathname s now1 hl ht]
  exact ⟨rfl, rfl, rfl, rfl, rfl, rfl, sendToAI_ok_iff⟩

/-- C6 on a network failure: the `fetch` rejects after "hello" was sent. -/
theorem C6_failed_send_witness :
    ({ ChatState.init with inputValue := "hello" } : ChatState).isLoading = false ∧
    trim ({ ChatState.init with inputValue := "hello" } : ChatState).inputValue ≠ "" ∧
    ({ ChatState.init with inputValue := "hello" } : ChatState).pending = [] ∧
    callFails (.rejected "TypeError: Failed to fetch") = true ∧
    (run "/seller.html" { ChatState.init with inputValue := "hello" }
      [.sendClick "09:00", .settle (.rejected "TypeError: Failed to fetch") "09:01"]).messages
      = [ChatMessage.mk .user "hello" "09:00", ChatMessage.mk .error errorText "09:01"] :=
  ⟨rfl, by decide, rfl, rfl,
   (C6_failed_send "/seller.html" { ChatState.init with inputValue := "hello" } "09:00" "09:01"
      (.rejected "TypeError: Failed to fetch") rfl (by decide) rfl rfl).1⟩

/-- C7: starting from an idle widget with an empty message list, after `N`
successful send/reply round-trips and no other append the retained count is
`min (2 * N) 50`, and the retained messages are the last 50 of the
conversation in send order. -/
theorem C7_round_trips (pathname : String) (s : ChatState) (trips : List RoundTrip)
    (hm : s.messages = []) (hl : s.isLoading = false) (hp : s.pending = [])
    (ht : ∀ t ∈ trips, trim t.input ≠ "") :
    (run pathname s (trips.flatMap RoundTrip.events)).messages
        = (trips.flatMap RoundTrip.messages).drop
            ((trips.flatMap RoundTrip.messages).length - 50) ∧
    (run pathname s (trips.flatMap RoundTrip.events)).messages.length
        = min (2 * trips.length) 50 := by
  have h := roundTrips_run pathname trips s hl hp (by simp [hm]) ht
  rw [hm, List.nil_append] at h
  refine ⟨h, ?_⟩
  rw [h, lastN_length, roundTrips_messages_length]
  rfl

/-- C7 on two round-trips from the initial state. -/
theorem C7_round_trips_witness :
    (∀ t ∈ [RoundTrip.mk "hi" "hello" "09:00" "09:01",
            RoundTrip.mk " mangoes? " "yes" "09:02" "09:03"], trim t.input ≠ "") ∧
    (run "/" ChatState.init
      (([RoundTrip.mk "hi" "hello" "09:00" "09:01",
         RoundTrip.mk " mangoes? " "yes" "09:02" "09:03"] : List RoundTrip).flatMap
        RoundTrip.events)).messages
      = [ChatMessage.mk .user "hi" "09:00", ChatMessage.mk .ai "hello" "09:01",
         ChatMessage.mk .user "mangoes?" "09:02", ChatMessage.mk .ai "yes" "09:03"] ∧
    (run "/" ChatState.init
      (([RoundTrip.mk "hi" "hello" "09:00" "09:01",
         RoundTrip.mk " mangoes? " "yes" "09:02" "09:03"] : List RoundTrip).flatMap
        RoundTrip.events)).messages.length = min (2 * 2) 50 :=
  ⟨by decide,
   (C7_round_trips "/" ChatState.init
      [RoundTrip.mk "hi" "hello" "09:00" "09:01",
       RoundTrip.mk " mangoes? " "yes" "09:02" "09:03"]
      rfl rfl rfl (by decide)).1.trans (by decide),
   (C7_round_trips "/" ChatState.init
      [RoundTrip.mk "hi" "hello" "09:00" "09:01",
       RoundTrip.mk " mangoes? " "yes" "09:02" "09:03"]
      rfl rfl rfl (by decide)).2⟩

/-- C8: the welcome is tied to the FAB `click` listener only. Opening the widget
with Enter on the FAB leaves it open with no welcome appended and
`welcomeShown` still false; after a close, the next FAB click is the second
transition into the open state and it is that one which appends the greeting. -/
theorem C8_keyboard_open_has_no_welcome :
    (run "/index.html" ChatState.init [.keydown .fab "Enter" false "09:00"]).isOpen = true ∧
    (run "/index.html" ChatState.init [.keydown .fab "Enter" false "09:00"]).messages = [] ∧
    (run "/index.html" ChatState.init [.keydown .fab "Enter" false "09:00"]).welcomeShown
      = false ∧
    (run "/index.html" ChatState.init
      [.keydown .fab "Enter" false "09:00", .closeClick, .fabClick "09:05"]).messages
      = [ChatMessage.mk .ai (welcomeText "/index.html") "09:05"] := by
  refine ⟨by decide, by decide, by decide, by decide⟩

/-- C9: the page context is "buyer" when the path contains "buyer", otherwise
"seller" when it contains "seller", otherwise "home"; it is always one of the
three labels, and it is the `page` of every chat request issued. -/
theorem C9_page_context (path : String) :
    ("buyer".data <:+: path.data → detectPage path = "buyer") ∧
    (¬ "buyer".data <:+: path.data → "seller".data <:+: path.data →
      detectPage path = "seller") ∧
    (¬ "buyer".data <:+: path.data → ¬ "seller".data <:+: path.data →
      detectPage path = "home") ∧
    detectPage path ∈ ["buyer", "seller", "home"] ∧
    (∀ message : String, (sendToAIPayload path message).page = detectPage path) ∧
    (∀ (events : List Event), ∀ req ∈ (run path ChatState.init events).pending,
      req.page = detectPage path) :=
  ⟨detectPage_buyer path, detectPage_seller path, detectPage_home path, detectPage_mem path,
   fun _ => rfl,
   fun events => run_pending_page path events ChatState.init (by simp [ChatState.init])⟩

/-- C9 on a seller page path. -/
theorem C9_page_context_witness :
    ¬ "buyer".data <:+: "/seller.html".data ∧ "seller".data <:+: "/seller.html".data ∧
    detectPage "/seller.html" = "seller" :=
  have hb : ¬ "buyer".data <:+: "/seller.html".data :=
    fun h => absurd ((includes_iff "/seller.html" "buyer").mpr h) (by decide)
  have hs : "seller".data <:+: "/seller.html".data :=
    (includes_iff "/seller.html" "seller").mp (by decide)
  ⟨hb, hs, (C9_page_context "/seller.html").2.1 hb hs⟩

/-- C10, as stated, fails on a path that contains both words: "buyer" is tested
first, so the first message is the buyer greeting. -/
theorem C10_counterexample :
    "seller".data <:+: "/buyer/seller.html".data ∧
    (step "/buyer/seller.html" ChatState.init (.fabClick "09:00")).messages
      ≠ [ChatMessage.mk .ai
          "👋 Hi! I'm your Fruitie AI assistant. I can help you price your produce, find transport options, or understand payment methods. How can I help?"
          "09:00"] ∧
    (step "/buyer/seller.html" ChatState.init (.fabClick "09:00")).messages
      = [ChatMessage.mk .ai
          "👋 Hi! I'm your Fruitie AI assistant. I can help you find the best fruits, compare seller prices, or estimate quantities. What are you looking for today?"
          "09:00"] :=
  ⟨(includes_iff "/buyer/seller.html" "seller").mp (by decide), by decide, by decide⟩

/-- C10, amended: for every path that contains "seller" and does not contain
"buyer", the first FAB click on a closed widget whose welcome has not been shown
and whose history is empty opens it and makes the seller greeting the only
message. -/
theorem C10_seller_greeting (path : String) (s : ChatState) (now : String)
    (hs : "seller".data <:+: path.data) (hb : ¬ "buyer".data <:+: path.data)
    (hclosed : s.isOpen = false) (hw : s.welcomeShown = false) (hm : s.messages = []) :
    (step path s (.fabClick now)).isOpen = true ∧
    (step path s (.fabClick now)).messages
      = [ChatMessage.mk .ai
          "👋 Hi! I'm your Fruitie AI assistant. I can help you price your produce, find transport options, or understand payment methods. How can I help?"
          now] := by
  have hp : PAGE_CONTEXT path = "seller" := detectPage_seller path hb hs
  have hwt : welcomeText path
      = "👋 Hi! I'm your Fruitie AI assistant. I can help you price your produce, find transport options, or understand payment methods. How can I help?" := by
    unfold welcomeText
    rw [hp]
    decide
  have ht : toggleModal s = openModal s := by simp [toggleModal, hclosed]
  simp only [step, ht]
  have ho : (openModal s).isOpen = true := rfl
  simp only [ho, if_true]
  unfold showWelcome
  have hw2 : (openModal s).welcomeShown = false := hw
  simp only [hw2]
  refine ⟨rfl, ?_⟩
  show appendMessage s.messages .ai (welcomeText path) now = _
  rw [hm, hwt]
  rfl

/-- C10 amended, on the seller page from the initial state. -/
theorem C10_seller_greeting_witness :
    "seller".data <:+: "/seller.html".data ∧ ¬ "buyer".data <:+: "/seller.html".data ∧
    ChatState.init.isOpen = false ∧ ChatState.init.welcomeShown = false ∧
    ChatState.init.messages = [] ∧
    (step "/seller.html" ChatState.init (.fabClick "09:00")).messages
      = [ChatMessage.mk .ai
          "👋 Hi! I'm your Fruitie AI assistant. I can help you price your produce, find transport options, or understand payment methods. How can I help?"
          "09:00"] :=
  have hs : "seller".data <:+: "/seller.html".data :=
    (includes_iff "/seller.html" "seller").mp (by decide)
  have hb : ¬ "buyer".data <:+: "/seller.html".data :=
    fun h => absurd ((includes_iff "/seller.html" "buyer").mpr h) (by decide)
  ⟨hs, hb, rfl, rfl, rfl,
   (C10_seller_greeting "/seller.html" ChatState.init "09:00" hs hb rfl rfl rfl).2⟩

theorem showWelcome_shown (p : String) (s : ChatState) (now : String)
    (h : s.welcomeShown = true) : showWelcome p s now = s := by
  simp [showWelcome, h]

theorem toggleModal_welcomeShown (s : ChatState) :
    (toggleModal s).welcomeShown = s.welcomeShown := by
  unfold toggleModal; split <;> rfl

theorem step_openClose (p : String) (s : ChatState) (e : Event)
    (he : e.isOpenClose = true) (hw : s.welcomeShown = true) :
    (step p s e).messages = s.messages ∧ (step p s e).welcomeShown = true := by
  cases e with
  | fabClick now =>
    have hs : showWelcome p (toggleModal s) now = toggleModal s :=
      showWelcome_shown p _ now ((toggleModal_welcomeShown s).trans hw)
    simp only [step, hs, ite_self]
    exact ⟨toggleModal_messages s, (toggleModal_welcomeShown s).trans hw⟩
  | keydown target key shiftKey now =>
    cases target with
    | fab =>
      simp only [step]
      repeat' split
      all_goals exact ⟨by simp, by simp [closeModal, toggleModal_welcomeShown, hw]⟩
    | input =>
      have hk : key = "Escape" := by simpa [Event.isOpenClose] using he
      subst hk
      simp only [step]
      have hne : (decide ("Escape" = "Enter") && !shiftKey) = false := by simp
      simp only [hne]
      repeat' split
      all_goals first
        | exact ⟨rfl, hw⟩
        | contradiction
    | other =>
      simp only [step]
      split
      · exact ⟨rfl, hw⟩
      · exact ⟨rfl, hw⟩
  | closeClick => exact ⟨rfl, hw⟩
  | sendClick now => simp [Event.isOpenClose] at he
  | typeInput value => simp [Event.isOpenClose] at he
  | settle o now => simp [Event.isOpenClose] at he

theorem run_openClose (p : String) (events : List Event) :
    ∀ s : ChatState, (∀ e ∈ events, e.isOpenClose = true) → s.welcomeShown = true →
      (run p s events).messages = s.messages := by
  induction events with
  | nil => intro s _ _; rfl
  | cons e es ih =>
    intro s he hw
    have h := step_openClose p s e (he e (List.mem_cons_self _ _)) hw
    exact (ih (step p s e) (fun x hx => he x (List.mem_cons_of_mem _ hx)) h.2).trans h.1

/-- C11: `closeModal` changes only the open flag and the two visibility
attributes; the message list, `isLoading` and `welcomeShown` are as before. Once
the welcome has been shown, closing and reopening (and any further sequence of
open and close actions) leaves the message list exactly as it was. -/
theorem C11_close_keeps_history (pathname : String) (s : ChatState) :
    closeModal s
      = { s with modalHidden := true, isOpen := false, ariaExpanded := "false" } ∧
    (closeModal s).messages = s.messages ∧
    (closeModal s).isLoading = s.isLoading ∧
    (closeModal s).welcomeShown = s.welcomeShown ∧
    (s.welcomeShown = true → ∀ now : String,
      (run pathname s [.closeClick, .fabClick now]).messages = s.messages ∧
      (run pathname s [.closeClick, .fabClick now]).isOpen = true) ∧
    (s.welcomeShown = true → ∀ events : List Event,
      (∀ e ∈ events, e.isOpenClose = true) →
      (run pathname s events).messages = s.messages) := by
  refine ⟨rfl, rfl, rfl, rfl, fun hw now => ⟨?_, ?_⟩, fun hw events he =>
    run_openClose pathname events s he hw⟩
  · exact run_openClose pathname [.closeClick, .fabClick now] s (by simp [Event.isOpenClose]) hw
  · have hs : showWelcome pathname (openModal (closeModal s)) now = openModal (closeModal s) :=
      showWelcome_shown pathname _ now hw
    have h1 : toggleModal (closeModal s) = openModal (closeModal s) := by
      simp [toggleModal, closeModal]
    show (step pathname (closeModal s) (.fabClick now)).isOpen = true
    simp only [step, h1]
    rw [hs, ite_self]
    rfl

/-- C11 on a session that was opened by click, closed and reopened. -/
theorem C11_close_keeps_history_witness :
    (run "/buyer.html" ChatState.init [.fabClick "09:00"]).welcomeShown = true ∧
    (run "/buyer.html" (run "/buyer.html" ChatState.init [.fabClick "09:00"])
        [.closeClick, .fabClick "09:05"]).messages
      = (run "/buyer.html" ChatState.init [.fabClick "09:00"]).messages :=
  ⟨by decide,
   ((C11_close_keeps_history "/buyer.html"
      (run "/buyer.html" ChatState.init [.fabClick "09:00"])).2.2.2.2.1 (by decide) "09:05").1⟩

/-! ## The phone pattern -/

theorem Re.mem_run_chr (c : Char) (s r : List Char) :
    r ∈ (Re.chr c).run s ↔ s = c :: r := by
  cases s with
  | nil => simp [Re.run]
  | cons x xs =>
    by_cases h : x = c
    · simp [Re.run, h, eq_comm]
    · simp [Re.run, h]

theorem Re.mem_run_cls (p : Char → Bool) (s r : List Char) :
    r ∈ (Re.cls p).run s ↔ ∃ x, s = x :: r ∧ p x = true := by
  cases s with
  | nil => simp [Re.run]
  | cons x xs =>
    by_cases h : p x = true
    · simp only [Re.run, h, if_true, List.mem_singleton, List.cons.injEq]
      constructor
      · intro e; exact ⟨x, ⟨rfl, e.symm⟩, h⟩
      · rintro ⟨y, ⟨rfl, e⟩, _⟩; exact e.symm
    · simp only [Re.run, h, List.cons.injEq]
      constructor
      · intro e; simp at e
      · rintro ⟨y, ⟨rfl, _⟩, hy⟩; exact absurd hy h

theorem Re.mem_run_seq (a b : Re) (s r : List Char) :
    r ∈ (Re.seq a b).run s ↔ ∃ m, m ∈ a.run s ∧ r ∈ b.run m := by
  simp [Re.run, List.mem_flatMap]

theorem Re.mem_run_alt (a b : Re) (s r : List Char) :
    r ∈ (Re.alt a b).run s ↔ r ∈ a.run s ∨ r ∈ b.run s := by
  simp [Re.run]

theorem Re.mem_run_opt (a : Re) (s r : List Char) :
    r ∈ (Re.opt a).run s ↔ r ∈ a.run s ∨ r = s := by
  simp [Re.run]

theorem Re.run_rep_succ (n : Nat) (a : Re) (s : List Char) :
    (Re.rep (n + 1) a).run s = ((Re.rep n a).run s).flatMap a.run := by
  simp [Re.run, List.range_succ, List.foldl_append]

theorem Re.mem_run_rep_cls (p : Char → Bool) (n : Nat) (s r : List Char) :
    r ∈ (Re.rep n (.cls p)).run s ↔
      ∃ ds, s = ds ++ r ∧ ds.length = n ∧ ∀ c ∈ ds, p c = true := by
  induction n generalizing r with
  | zero =>
    simp only [Re.run, List.range_zero, List.foldl_nil, List.mem_singleton]
    constructor
    · intro e; exact ⟨[], by simp [e], rfl, by simp⟩
    · rintro ⟨ds, e, hl, _⟩
      rw [List.length_eq_zero] at hl
      simp [e, hl]
  | succ n ih =>
    rw [Re.run_rep_succ, List.mem_flatMap]
    constructor
    · rintro ⟨m, hm, hr⟩
      obtain ⟨ds, e, hl, hp⟩ := (ih m).mp hm
      obtain ⟨x, ex, hx⟩ := (Re.mem_run_cls p m r).mp hr
      refine ⟨ds ++ [x], by simp [e, ex], by simp [hl], ?_⟩
      intro c hc
      rcases List.mem_append.mp hc with h | h
      · exact hp c h
      · rw [List.mem_singleton.mp h]; exact hx
    · rintro ⟨ds, e, hl, hp⟩
      rcases List.eq_nil_or_concat ds with h | ⟨ds0, x, h⟩
      · simp [h] at hl
      · subst h
        refine ⟨x :: r, (ih _).mpr ⟨ds0, by simp [e], by simpa using hl, ?_⟩, ?_⟩
        · intro c hc; exact hp c (by simp [hc])
        · exact (Re.mem_run_cls p _ r).mpr ⟨x, rfl, hp x (by simp)⟩

theorem Re.test_iff (re : Re) (s : List Char) : re.test s = true ↔ [] ∈ re.run s := by
  simp only [Re.test, List.any_eq_true, List.isEmpty_iff]
  constructor
  · rintro ⟨r, hr, e⟩; exact e ▸ hr
  · intro h; exact ⟨[], h, rfl⟩

theorem phonePattern_group (s m : List Char) :
    m ∈ (Re.alt (.seq (.opt (.chr '+')) (.seq (.chr '2') (.seq (.chr '5') (.chr '4'))))
          (.chr '0')).run s ↔
      s = '+' :: '2' :: '5' :: '4' :: m ∨ s = '2' :: '5' :: '4' :: m ∨ s = '0' :: m := by
  simp only [Re.mem_run_alt, Re.mem_run_seq, Re.mem_run_opt, Re.mem_run_chr]
  constructor
  · rintro (⟨m1, h1 | h1, m2, h2, m3, h3, h4⟩ | h)
    · subst h1 h2 h3 h4; exact .inl rfl
    · subst h1 h2 h3 h4; exact .inr (.inl rfl)
    · exact .inr (.inr h)
  · rintro (h | h | h)
    · exact .inl ⟨_, .inl h, _, rfl, _, rfl, rfl⟩
    · exact .inl ⟨_, .inr rfl, _, h, _, rfl, rfl⟩
    · exact .inr h

theorem phonePattern_rest (m : List Char) :
    [] ∈ (Re.seq (.cls (fun c => c = '1' || c = '7')) (.rep 8 (.cls isDigit))).run m ↔
      ∃ d ds, m = d :: ds ∧ (d = '1' ∨ d = '7') ∧ ds.length = 8 ∧ ∀ c ∈ ds, isDigit c = true := by
  simp only [Re.mem_run_seq, Re.mem_run_cls, Re.mem_run_rep_cls]
  constructor
  · rintro ⟨t, ⟨d, e, hd⟩, ds, e2, hl, hp⟩
    refine ⟨d, ds, by simp [e, e2], by simpa using hd, hl, hp⟩
  · rintro ⟨d, ds, e, hd, hl, hp⟩
    exact ⟨ds, ⟨d, e, by simpa using hd⟩, ds, by simp, hl, hp⟩

theorem isValidPhone_iff (phone : String) :
    isValidPhone phone = true ↔
      ∃ pre d ds, removeWhiteSpace phone.data = pre ++ d :: ds ∧
        (pre = ['+', '2', '5', '4'] ∨ pre = ['2', '5', '4'] ∨ pre = ['0']) ∧
        (d = '1' ∨ d = '7') ∧ ds.length = 8 ∧ ∀ c ∈ ds, isDigit c = true := by
  unfold isValidPhone
  rw [Re.test_iff, phonePattern, Re.mem_run_seq]
  constructor
  · rintro ⟨m, hm, hr⟩
    obtain ⟨d, ds, e, hd, hl, hp⟩ := (phonePattern_rest m).mp hr
    subst e
    rcases (phonePattern_group _ _).mp hm with h | h | h
    · exact ⟨_, d, ds, h, .inl rfl, hd, hl, hp⟩
    · exact ⟨_, d, ds, h, .inr (.inl rfl), hd, hl, hp⟩
    · exact ⟨_, d, ds, h, .inr (.inr rfl), hd, hl, hp⟩
  · rintro ⟨pre, d, ds, e, hpre, hd, hl, hp⟩
    refine ⟨d :: ds, (phonePattern_group _ _).mpr ?_, (phonePattern_rest _).mpr
      ⟨d, ds, rfl, hd, hl, hp⟩⟩
    rcases hpre with h | h | h <;> subst h
    · exact .inl e
    · exact .inr (.inl e)
    · exact .inr (.inr e)

theorem documentedPhoneFormat_iff (cs : List Char) :
    documentedPhoneFormat cs = true ↔
      ∃ ds, (cs = '0' :: '7' :: ds ∨ cs = '+' :: '2' :: '5' :: '4' :: '7' :: ds) ∧
        ds.length = 8 ∧ ∀ c ∈ ds, isDigit c = true := by
  unfold documentedPhoneFormat
  simp only [Bool.or_eq_true, Bool.and_eq_true, List.isPrefixOf_iff_prefix, beq_iff_eq,
    List.all_eq_true]
  constructor
  · rintro (⟨⟨⟨t, e⟩, hl⟩, hp⟩ | ⟨⟨⟨t, e⟩, hl⟩, hp⟩)
    · subst e
      exact ⟨t, .inl rfl, by simpa using hl, by simpa using hp⟩
    · subst e
      exact ⟨t, .inr rfl, by simpa using hl, by simpa using hp⟩
  · rintro ⟨ds, h | h, hl, hp⟩
    · subst h
      exact .inl ⟨⟨⟨ds, rfl⟩, by simpa using hl⟩, by simpa using hp⟩
    · subst h
      exact .inr ⟨⟨⟨ds, rfl⟩, by simpa using hl⟩, by simpa using hp⟩

/-! ## HTML escaping -/

theorem replaceAll_flatMap (c : Char) (r : String) (f : Char → List Char) (l : List Char) :
    replaceAll c r (l.flatMap f) = l.flatMap (fun x => replaceAll c r (f x)) := by
  unfold replaceAll
  rw [List.flatMap_assoc]

theorem replaceAll_eq_flatMap (c : Char) (r : String) (l : List Char) :
    replaceAll c r l = l.flatMap (fun x => replaceAll c r [x]) := by
  simp [replaceAll]

theorem escapeChar_chain (x : Char) :
    replaceAll apostropheChar "&#039;" (replaceAll quoteChar "&quot;" (replaceAll '>' "&gt;"
      (replaceAll '<' "&lt;" (replaceAll '&' "&amp;" [x])))) = escapeChar x := by
  unfold escapeChar
  by_cases h1 : x = '&'
  · subst h1; decide
  by_cases h2 : x = '<'
  · subst h2; decide
  by_cases h3 : x = '>'
  · subst h3; decide
  by_cases h4 : x = quoteChar
  · subst h4; decide
  by_cases h5 : x = apostropheChar
  · subst h5; decide
  simp [replaceAll, h1, h2, h3, h4, h5]

theorem escapeHtml_data (s : String) : (escapeHtml s).data = s.data.flatMap escapeChar := by
  show replaceAll apostropheChar "&#039;" (replaceAll quoteChar "&quot;" (replaceAll '>' "&gt;"
      (replaceAll '<' "&lt;" (replaceAll '&' "&amp;" s.data)))) = _
  rw [replaceAll_eq_flatMap '&', replaceAll_flatMap, replaceAll_flatMap, replaceAll_flatMap,
    replaceAll_flatMap]
  congr 1
  funext x
  exact escapeChar_chain x

theorem escapeChar_cases (x : Char) :
    (x ∉ specialChars ∧ escapeChar x = [x]) ∨
    (∃ e ∈ entities, e.2 = x ∧ escapeChar x = e.1.data) := by
  unfold escapeChar
  by_cases h1 : x = '&'
  · subst h1; exact .inr ⟨("&amp;", '&'), by decide, rfl, by decide⟩
  by_cases h2 : x = '<'
  · subst h2; exact .inr ⟨("&lt;", '<'), by decide, rfl, by decide⟩
  by_cases h3 : x = '>'
  · subst h3; exact .inr ⟨("&gt;", '>'), by decide, rfl, by decide⟩
  by_cases h4 : x = quoteChar
  · subst h4; exact .inr ⟨("&quot;", quoteChar), by decide, rfl, by decide⟩
  by_cases h5 : x = apostropheChar
  · subst h5; exact .inr ⟨("&#039;", apostropheChar), by decide, rfl, by decide⟩
  · exact .inl ⟨by simp [specialChars, h1, h2, h3, h4, h5], by simp [h1, h2, h3, h4, h5]⟩

theorem entities_shape :
    ∀ e ∈ entities, ∃ tail, e.1.data = '&' :: tail ∧ '&' ∉ tail ∧
      ∀ c ∈ e.1.data, c ≠ '<' ∧ c ≠ '>' ∧ c ≠ quoteChar ∧ c ≠ apostropheChar := by
  intro e he
  simp only [entities, List.mem_cons, List.mem_singleton, List.not_mem_nil, or_false] at he
  rcases he with h | h | h | h | h <;> subst h
  · exact ⟨"amp;".data, rfl, by decide, by decide⟩
  · exact ⟨"lt;".data, rfl, by decide, by decide⟩
  · exact ⟨"gt;".data, rfl, by decide, by decide⟩
  · exact ⟨"quot;".data, rfl, by decide, by decide⟩
  · exact ⟨"#039;".data, rfl, by decide, by decide⟩

theorem escaped_no_markup (s : List Char) :
    ∀ c ∈ s.flatMap escapeChar,
      c ≠ '<' ∧ c ≠ '>' ∧ c ≠ quoteChar ∧ c ≠ apostropheChar := by
  intro c hc
  obtain ⟨x, _, hx⟩ := List.mem_flatMap.mp hc
  rcases escapeChar_cases x with ⟨hn, e⟩ | ⟨e, he, _, hd⟩
  · rw [e, List.mem_singleton] at hx
    subst hx
    simp only [specialChars, List.mem_cons, List.mem_singleton, List.not_mem_nil, or_false,
      not_or] at hn
    exact ⟨hn.2.1, hn.2.2.1, hn.2.2.2.1, hn.2.2.2.2⟩
  · obtain ⟨tail, _, _, hall⟩ := entities_shape e he
    exact hall c (hd ▸ hx)

theorem amp_split (blk rest pre post : List Char) (h : '&' ∉ blk)
    (e : blk ++ rest = pre ++ '&' :: post) :
    ∃ pre2, pre = blk ++ pre2 ∧ rest = pre2 ++ '&' :: post := by
  induction blk generalizing pre with
  | nil => exact ⟨pre, rfl, e⟩
  | cons b bs ih =>
    cases pre with
    | nil =>
      simp only [List.cons_append, List.nil_append, List.cons.injEq] at e
      exact absurd (e.1 ▸ List.mem_cons_self _ _) h
    | cons p ps =>
      simp only [List.cons_append, List.cons.injEq] at e
      obtain ⟨pre2, h1, h2⟩ := ih ps (fun hm => h (List.mem_cons_of_mem _ hm)) e.2
      exact ⟨pre2, by simp [e.1, h1], h2⟩

theorem escaped_amp_entity (s : List Char) :
    ∀ pre post, s.flatMap escapeChar = pre ++ '&' :: post →
      ∃ e ∈ entities, e.1.data <+: '&' :: post := by
  induction s with
  | nil => intro pre post h; simp at h
  | cons x xs ih =>
    intro pre post h
    rw [List.flatMap_cons] at h
    rcases escapeChar_cases x with ⟨hn, e⟩ | ⟨e, he, _, hd⟩
    · rw [e] at h
      cases pre with
      | nil =>
        simp only [List.singleton_append, List.nil_append, List.cons.injEq] at h
        exact absurd (h.1 ▸ (by decide : '&' ∈ specialChars)) hn
      | cons p ps =>
        simp only [List.singleton_append, List.cons_append, List.cons.injEq] at h
        exact ih ps post h.2
    · obtain ⟨tail, ht, hamp, _⟩ := entities_shape e he
      rw [hd, ht] at h
      cases pre with
      | nil =>
        refine ⟨e, he, ?_⟩
        rw [ht]
        exact ⟨xs.flatMap escapeChar, by simpa using h⟩
      | cons p ps =>
        simp only [List.cons_append, List.cons.injEq] at h
        obtain ⟨pre2, _, h2⟩ := amp_split tail _ ps post hamp h.2
        exact ih pre2 post h2

theorem escaped_plain (s : List Char) (h : ∀ c ∈ s, c ∉ specialChars) :
    s.flatMap escapeChar = s := by
  induction s with
  | nil => rfl
  | cons x xs ih =>
    rw [List.flatMap_cons, ih (fun c hc => h c (List.mem_cons_of_mem _ hc))]
    rcases escapeChar_cases x with ⟨_, e⟩ | ⟨e, he, hx, _⟩
    · rw [e]; rfl
    · exfalso
      apply h x (List.mem_cons_self _ _)
      simp only [entities, List.mem_cons, List.mem_singleton, List.not_mem_nil, or_false] at he
      rcases he with r | r | r | r | r <;> subst r <;> subst hx <;> decide

theorem unescapeAux_block (x : Char) (rest : List Char) (k : Nat) :
    unescapeAux (k + 1) (escapeChar x ++ rest) = x :: unescapeAux k rest := by
  have l1 : "&amp;".length = 5 := rfl
  have l2 : "&lt;".length = 4 := rfl
  have l3 : "&gt;".length = 4 := rfl
  have l4 : "&quot;".length = 6 := rfl
  have l5 : "&#039;".length = 6 := rfl
  unfold escapeChar
  by_cases h1 : x = '&'
  · subst h1
    simp [unescapeAux, entities, List.find?, List.isPrefixOf, l1]
  by_cases h2 : x = '<'
  · subst h2
    simp [unescapeAux, entities, List.find?, List.isPrefixOf, l2]
  by_cases h3 : x = '>'
  · subst h3
    simp [unescapeAux, entities, List.find?, List.isPrefixOf, l3]
  by_cases h4 : x = quoteChar
  · subst h4
    simp [unescapeAux, entities, List.find?, List.isPrefixOf, l4, quoteChar]
  by_cases h5 : x = apostropheChar
  · subst h5
    simp [unescapeAux, entities, List.find?, List.isPrefixOf, l5, apostropheChar, quoteChar]
  have hne : ('&' == x) = false := by simpa using fun h => h1 h.symm
  simp [unescapeAux, entities, List.find?, List.isPrefixOf, hne, h1, h2, h3, h4, h5]

theorem unescapeAux_escaped (s : List Char) :
    ∀ n, s.length ≤ n → unescapeAux n (s.flatMap escapeChar) = s := by
  induction s with
  | nil =>
    intro n _
    cases n <;> rfl
  | cons x xs ih =>
    intro n hn
    cases n with
    | zero => simp at hn
    | succ k =>
      rw [List.flatMap_cons, unescapeAux_block, ih k (by simpa using hn)]

theorem escaped_length (s : List Char) : s.length ≤ (s.flatMap escapeChar).length := by
  induction s with
  | nil => simp
  | cons x xs ih =>
    rw [List.flatMap_cons, List.length_append, List.length_cons]
    have : 1 ≤ (escapeChar x).length := by
      rcases escapeChar_cases x with ⟨_, e⟩ | ⟨e, he, _, hd⟩
      · rw [e]; simp
      · obtain ⟨tail, ht, _, _⟩ := entities_shape e he
        rw [hd, ht]; simp
    omega

theorem unescapeHtml_escapeHtml (s : String) : unescapeHtml (escapeHtml s) = s := by
  unfold unescapeHtml
  have hd := escapeHtml_data s
  have hl : (escapeHtml s).length = (s.data.flatMap escapeChar).length := by
    rw [← hd]; rfl
  rw [hl, hd, unescapeAux_escaped s.data _ (escaped_length s.data)]

/-! ## The fruit list -/

/-- With `mockFetch` bound to the helper its docstring describes, `loadFruits` on
an area without tags renders one tag per entry of `MOCK_FRUITS`, in table order. -/
theorem loadFruits_documented (loadingEl : Bool) :
    (loadFruits (some documentedMockFetch) { area := some [], loadingEl := loadingEl }).tags
      = MOCK_FRUITS.map fruitTag ∧
    (loadFruits (some documentedMockFetch) { area := some [], loadingEl := loadingEl }).tags.length
      = 12 := by
  cases loadingEl <;> exact ⟨by decide, by decide⟩

/-- C12: `isValidPhone` returns true on a number that starts with 01 and on one
that starts with 254 without the plus sign, although neither has one of the two
formats its docstring names, 07xxxxxxxx and +2547xxxxxxxx. -/
theorem C12_isValidPhone_accepts_undocumented :
    (isValidPhone "0112345678" = true ∧
      documentedPhoneFormat (removeWhiteSpace "0112345678".data) = false) ∧
    (isValidPhone "254712345678" = true ∧
      documentedPhoneFormat (removeWhiteSpace "254712345678".data) = false) := by
  decide

/-- What the pattern accepts: `isValidPhone` returns true exactly when the phone
with all white space removed is "+254", "254" or "0", then a 1 or a 7, then
exactly eight digits; both documented formats, 07xxxxxxxx and +2547xxxxxxxx,
are among the accepted strings. -/
theorem isValidPhone_formats (phone : String) :
    (isValidPhone phone = true ↔
      ∃ pre d ds, removeWhiteSpace phone.data = pre ++ d :: ds ∧
        (pre = "+254".data ∨ pre = "254".data ∨ pre = "0".data) ∧
        (d = '1' ∨ d = '7') ∧ ds.length = 8 ∧ ∀ c ∈ ds, isDigit c = true) ∧
    (documentedPhoneFormat (removeWhiteSpace phone.data) = true → isValidPhone phone = true) := by
  refine ⟨isValidPhone_iff phone, fun h => ?_⟩
  obtain ⟨ds, hcs, hl, hp⟩ := (documentedPhoneFormat_iff _).mp h
  rw [isValidPhone_iff]
  rcases hcs with e | e
  · exact ⟨['0'], '7', ds, e, .inr (.inr rfl), .inr rfl, hl, hp⟩
  · exact ⟨['+', '2', '5', '4'], '7', ds, e, .inl rfl, .inr rfl, hl, hp⟩

/-- A documented number written with spaces is accepted. -/
theorem isValidPhone_formats_example :
    documentedPhoneFormat (removeWhiteSpace "0712 345 678".data) = true ∧
    isValidPhone "0712 345 678" = true :=
  ⟨by decide, (isValidPhone_formats "0712 345 678").2 (by decide)⟩

/-- C13: the output of `escapeHtml` contains none of the characters `<`, `>`,
double quote and apostrophe; every `&` in it starts one of the five entities;
replacing the entities back by their characters recovers the argument; and an
argument without any of the five special characters is returned unchanged. -/
theorem C13_escapeHtml (s : String) :
    (∀ c ∈ (escapeHtml s).data,
      c ≠ '<' ∧ c ≠ '>' ∧ c ≠ quoteChar ∧ c ≠ apostropheChar) ∧
    (∀ pre post, (escapeHtml s).data = pre ++ '&' :: post →
      ∃ e ∈ entities, e.1.data <+: '&' :: post) ∧
    unescapeHtml (escapeHtml s) = s ∧
    ((∀ c ∈ s.data, c ∉ specialChars) → escapeHtml s = s) := by
  have hd := escapeHtml_data s
  refine ⟨?_, ?_, unescapeHtml_escapeHtml s, fun h => ?_⟩
  · rw [hd]; exact escaped_no_markup s.data
  · rw [hd]; exact escaped_amp_entity s.data
  · have e : (escapeHtml s).data = s.data := hd.trans (escaped_plain s.data h)
    exact String.ext e

/-- C13 on a seller name without special characters. -/
theorem C13_escapeHtml_witness :
    (∀ c ∈ "Kamau Fresh Farms".data, c ∉ specialChars) ∧
    escapeHtml "Kamau Fresh Farms" = "Kamau Fresh Farms" :=
  ⟨by decide, (C13_escapeHtml "Kamau Fresh Farms").2.2.2 (by decide)⟩

/-- C14: the script never declares `mockFetch`, so on every page where the fruit
list area exists `loadFruits` throws inside its `try` block and runs the
`catch` block: the area holds only the "Failed to load fruits" paragraph and
no fruit tag, instead of the twelve tags of `MOCK_FRUITS`. -/
theorem C14_loadFruits_takes_error_branch (children : List AreaNode) (loadingEl : Bool) :
    loadFruits scriptMockFetch { area := some children, loadingEl := loadingEl }
      = { area := some [.markup loadFruitsError], loadingEl := false } ∧
    (loadFruits scriptMockFetch { area := some children, loadingEl := loadingEl }).tags = [] ∧
    (loadFruits scriptMockFetch { area := some children, loadingEl := loadingEl }).tags.length
      ≠ MOCK_FRUITS.length := by
  refine ⟨rfl, rfl, ?_⟩
  show (0 : Nat) ≠ 12
  decide

end Frutie
